import Mathlib

set_option maxHeartbeats 1000000

/-! Shallow embedding of the Whole-Store-Scraper sales dashboard
(src/dashboard.py): the summary aggregation query, its post-filters, and
the spec's aggregation-engine components, together with theorems about
the spec's testable properties. -/

/-- A row of the `daily_sold_items` table, projected to the columns the
summary query selects.  Prices are modelled as (scaled) integers,
preserving their total order. -/
structure DailySoldItem where
  ebay_item_number : String
  title : String
  price : Int
  product_url : String
  sku : Option String
deriving DecidableEq

/-- A row of the `item_sold_dates` table: one (item, date) sale record
with an explicit quantity.  Dates are modelled as integer day numbers,
preserving their total order. -/
structure ItemSoldDate where
  ebay_item_number : String
  sold_date : Int
  quantity_sold : Nat
deriving DecidableEq

/-- One row of the result set produced by `summary_query`. -/
structure SummaryRow where
  ebay_item_number : String
  title : String
  price : Int
  product_url : String
  sku : Option String
  total_quantity_sold : Nat
deriving DecidableEq

/-- The FROM/JOIN/WHERE part of `summary_query`: join `daily_sold_items`
with `item_sold_dates` on the item number and keep sale rows whose
`sold_date` lies `BETWEEN start_d AND end_d` (inclusive on both ends). -/
def join_rows (items : List DailySoldItem) (sales : List ItemSoldDate)
    (start_d end_d : Int) : List (DailySoldItem × ItemSoldDate) :=
  items.flatMap fun d =>
    (sales.filter fun s =>
        s.ebay_item_number == d.ebay_item_number
          && decide (start_d ≤ s.sold_date) && decide (s.sold_date ≤ end_d)).map
      fun s => (d, s)

/-- The GROUP BY keys: the distinct tuples of grouped columns (all the
selected columns of `daily_sold_items`) occurring in the joined rows. -/
def group_keys (joined : List (DailySoldItem × ItemSoldDate)) :
    List DailySoldItem :=
  (joined.map Prod.fst).dedup

/-- The grouped rows, with `SUM(s.quantity_sold) AS total_quantity_sold`
computed per group. -/
def summary_rows (items : List DailySoldItem) (sales : List ItemSoldDate)
    (start_d end_d : Int) : List SummaryRow :=
  (group_keys (join_rows items sales start_d end_d)).map fun d =>
    ⟨d.ebay_item_number, d.title, d.price, d.product_url, d.sku,
      (((join_rows items sales start_d end_d).filter fun p => p.1 == d).map
        fun p => p.2.quantity_sold).sum⟩

/-- Insert a row into a list kept in non-increasing order of
`total_quantity_sold`. -/
def insert_desc (r : SummaryRow) : List SummaryRow → List SummaryRow
  | [] => [r]
  | x :: xs =>
    if x.total_quantity_sold ≤ r.total_quantity_sold then r :: x :: xs
    else x :: insert_desc r xs

/-- The `ORDER BY total_quantity_sold DESC` clause, realised as an insertion sort. -/
def order_by_total_desc : List SummaryRow → List SummaryRow
  | [] => []
  | r :: rs => insert_desc r (order_by_total_desc rs)

/-- The `summary_query` of src/dashboard.py (lines 95-103): join, filter by
the inclusive date range, group by the item columns, sum the quantities,
and order by the summed quantity, descending. -/
def summary_query (items : List DailySoldItem) (sales : List ItemSoldDate)
    (start_d end_d : Int) : List SummaryRow :=
  order_by_total_desc (summary_rows items sales start_d end_d)

/-- Does the character list starting here begin with the pattern? -/
def startsWithChars : List Char → List Char → Bool
  | [], _ => true
  | _ :: _, [] => false
  | p :: ps, c :: cs => p == c && startsWithChars ps cs

/-- Contiguous-substring containment on character lists. -/
def containsSub (pat : List Char) : List Char → Bool
  | [] => startsWithChars pat []
  | c :: t => startsWithChars pat (c :: t) || containsSub pat t

/-- Case-insensitive substring containment, mirroring pandas
`Series.str.contains(pat, case=False, regex=False)`. -/
def containsCI (s pat : String) : Bool :=
  containsSub pat.toLower.toList s.toLower.toList

/-- The sku match with `na=False`: a NULL sku never matches. -/
def skuMatches (sku : Option String) (pat : String) : Bool :=
  match sku with
  | some s => containsCI s pat
  | none => false

/-- The title stage of the Post-Filter block of src/dashboard.py (line
143-144): applied only when the text box is non-empty (`if title_filter:`
in Python), case-insensitive, non-regex. -/
def title_stage (rows : List SummaryRow) (title_filter : String) :
    List SummaryRow :=
  if title_filter = "" then rows
  else rows.filter fun r => containsCI r.title title_filter

/-- The sku stage of the filter block: applied only when non-empty. -/
def sku_stage (rows : List SummaryRow) (sku_filter : String) :
    List SummaryRow :=
  if sku_filter = "" then rows
  else rows.filter fun r => skuMatches r.sku sku_filter

/-- The Post-Filter block of src/dashboard.py (lines 142-150): the
optional title and sku substring stages, then the price and quantity
range filters, all ends inclusive. -/
def df_filtered (rows : List SummaryRow) (title_filter sku_filter : String)
    (price_lo price_hi : Int) (qty_lo qty_hi : Nat) : List SummaryRow :=
  (sku_stage (title_stage rows title_filter) sku_filter).filter fun r =>
    decide (price_lo ≤ r.price) && decide (r.price ≤ price_hi)
      && decide (qty_lo ≤ r.total_quantity_sold)
      && decide (r.total_quantity_sold ≤ qty_hi)

/-- Modelled from the spec: a `SaleEvent` (§3) — one sale record carrying
the item's attributes of record, a quantity (constant 1 for the
row-per-unit shape), and `idx`, the stable insertion-order key that §4.2
prescribes as the tie-break; the rolling-window engine itself is absent
from src/dashboard.py (only the custom-range query survives there). -/
structure SaleEvent where
  item_id : String
  sold_date : Int
  price : Int
  title : String
  image_url : String
  product_url : String
  quantity : Nat
  idx : Nat
deriving DecidableEq

/-- Modelled from the spec: the Rolling-Window Aggregator's output row —
per `item_id`, six integer counts (§4.1). -/
structure AggRow where
  item_id : String
  sold_7d : Nat
  sold_14d : Nat
  sold_21d : Nat
  sold_30d : Nat
  sold_custom : Nat
  sold_total : Nat
deriving DecidableEq

/-- The distinct item identifiers occurring in the event set. -/
def itemIds (events : List SaleEvent) : List String :=
  (events.map SaleEvent.item_id).dedup

/-- Modelled from the spec: the single counting primitive of §9 — sum a
caller-selected weight (constant 1, or the explicit quantity field) over
the events matching a predicate. -/
def countIn (events : List SaleEvent) (p : SaleEvent → Bool)
    (wt : SaleEvent → Nat) : Nat :=
  ((events.filter p).map wt).sum

/-- Modelled from the spec: a fixed trailing window count (§4.1) — events
of the item with `sold_date ≥ now − w` days. -/
def windowCount (events : List SaleEvent) (wt : SaleEvent → Nat) (i : String)
    (now : Int) (w : Nat) : Nat :=
  countIn events
    (fun e => e.item_id == i && decide (now - (w : Int) ≤ e.sold_date)) wt

/-- Modelled from the spec: the custom-range count (§4.1) — events of the
item with `start_d ≤ sold_date ≤ end_d`, both ends inclusive. -/
def customCount (events : List SaleEvent) (wt : SaleEvent → Nat) (i : String)
    (start_d end_d : Int) : Nat :=
  countIn events
    (fun e => e.item_id == i && decide (start_d ≤ e.sold_date)
      && decide (e.sold_date ≤ end_d)) wt

/-- Modelled from the spec: the unconditional all-time count (§4.1). -/
def totalCount (events : List SaleEvent) (wt : SaleEvent → Nat) (i : String) :
    Nat :=
  countIn events (fun e => e.item_id == i) wt

/-- Modelled from the spec: the Rolling-Window Aggregator (§4.1) — one
row per item occurring in the event set, with the four fixed windows, the
custom window and the all-time total. -/
def aggregate (events : List SaleEvent) (wt : SaleEvent → Nat)
    (now start_d end_d : Int) : List AggRow :=
  (itemIds events).map fun i =>
    ⟨i, windowCount events wt i now 7, windowCount events wt i now 14,
      windowCount events wt i now 21, windowCount events wt i now 30,
      customCount events wt i start_d end_d, totalCount events wt i⟩

/-- Modelled from the spec: of two events, the one that is later by the
lexicographic key (`sold_date`, insertion index) — the §4.2 tie-break. -/
def laterEvent (a b : SaleEvent) : SaleEvent :=
  if a.sold_date < b.sold_date ∨ (a.sold_date = b.sold_date ∧ a.idx < b.idx)
  then b else a

/-- Modelled from the spec: the Latest-Attributes Resolver's choice for
one item (§4.2) — the event with the maximum `sold_date`, ties broken by
the largest insertion index (last-inserted wins). -/
def latestEvent (events : List SaleEvent) (i : String) : Option SaleEvent :=
  match events.filter (fun e => e.item_id == i) with
  | [] => none
  | x :: xs => some (xs.foldl laterEvent x)

/-- Modelled from the spec: the attribute snapshot the Latest-Attributes
Resolver emits per item (§4.2). -/
structure AttrRow where
  item_id : String
  title : String
  price : Int
  image_url : String
  product_url : String
deriving DecidableEq

/-- Modelled from the spec: the Latest-Attributes Resolver (§4.2) — one
snapshot per item occurring in the event set. -/
def resolveAttrs (events : List SaleEvent) : List AttrRow :=
  (itemIds events).filterMap fun i =>
    (latestEvent events i).map fun e =>
      ⟨i, e.title, e.price, e.image_url, e.product_url⟩

/-- Modelled from the spec: one joined row — current attributes plus all
six metrics (§4.3). -/
structure JoinedRow where
  item_id : String
  title : String
  price : Int
  image_url : String
  product_url : String
  sold_7d : Nat
  sold_14d : Nat
  sold_21d : Nat
  sold_30d : Nat
  sold_custom : Nat
  sold_total : Nat
deriving DecidableEq

/-- Modelled from the spec: the Rollup Joiner (§4.3) — inner join of the
resolver and aggregator outputs on `item_id`; an aggregate row with no
attribute counterpart is an internal-consistency fault and the joiner
fails loudly with an error instead of dropping the row. -/
def joinRollup (attrs : List AttrRow) : List AggRow →
    Except String (List JoinedRow)
  | [] => Except.ok []
  | a :: rest =>
    match attrs.find? (fun t => t.item_id == a.item_id) with
    | none => Except.error ("orphaned aggregate row for item " ++ a.item_id)
    | some t =>
      match joinRollup attrs rest with
      | Except.error m => Except.error m
      | Except.ok l =>
        Except.ok (⟨a.item_id, t.title, t.price, t.image_url, t.product_url,
          a.sold_7d, a.sold_14d, a.sold_21d, a.sold_30d, a.sold_custom,
          a.sold_total⟩ :: l)

/-- Modelled from the spec: an `ItemRollup` (§3) — a joined row annotated
with the grand-total columns. -/
structure ItemRollup extends JoinedRow where
  grand_sold_7d : Nat
  grand_sold_14d : Nat
  grand_sold_21d : Nat
  grand_sold_30d : Nat
  grand_sold_total : Nat
deriving DecidableEq

/-- Modelled from the spec: the Grand-Total Annotator (§4.4) — compute
the column-wise sum of each metric over the post-join, pre-filter row set
and broadcast it identically onto every row. -/
def annotate (rows : List JoinedRow) : List ItemRollup :=
  rows.map fun r =>
    ⟨r, (rows.map JoinedRow.sold_7d).sum, (rows.map JoinedRow.sold_14d).sum,
      (rows.map JoinedRow.sold_21d).sum, (rows.map JoinedRow.sold_30d).sum,
      (rows.map JoinedRow.sold_total).sum⟩

/-! Concrete data used by the witness theorems. -/

/-- The §8 example scenario, with explicit insertion indices. -/
def demoEvents : List SaleEvent :=
  [⟨"A", 19723, 10, "Widget", "", "", 1, 0⟩,
   ⟨"A", 19742, 12, "Widget", "", "", 1, 1⟩,
   ⟨"B", 19747, 5, "Gadget", "", "", 1, 2⟩,
   ⟨"B", 19747, 6, "Gadget v2", "", "", 1, 3⟩]

def demoJoined : List JoinedRow :=
  [⟨"A", "Widget", 12, "", "", 0, 1, 2, 2, 1, 2⟩,
   ⟨"B", "Gadget", 5, "", "", 0, 0, 0, 1, 1, 1⟩]

def demoItems : List DailySoldItem :=
  [⟨"111", "Widget", 10, "http://x/1", some "SK1"⟩,
   ⟨"222", "Gadget", 5, "http://x/2", none⟩]

def demoSales : List ItemSoldDate :=
  [⟨"111", 19723, 2⟩, ⟨"111", 19742, 1⟩, ⟨"222", 19747, 4⟩, ⟨"333", 19750, 9⟩]

def demoRows : List SummaryRow :=
  [⟨"111", "Widget", 10, "http://x/1", some "SK1", 3⟩,
   ⟨"222", "Gadget", 5, "http://x/2", none, 4⟩]

/-! Helper lemmas. -/

theorem countIn_mono (events : List SaleEvent) (p q : SaleEvent → Bool)
    (wt : SaleEvent → Nat) (h : ∀ e, p e = true → q e = true) :
    countIn events p wt ≤ countIn events q wt := by
  induction events with
  | nil => simp [countIn]
  | cons e es ih =>
    simp only [countIn] at ih ⊢
    by_cases hp : p e = true
    · rw [List.filter_cons_of_pos hp, List.filter_cons_of_pos (h e hp),
        List.map_cons, List.map_cons, List.sum_cons, List.sum_cons]
      omega
    · by_cases hq : q e = true
      · rw [List.filter_cons_of_neg hp, List.filter_cons_of_pos hq,
          List.map_cons, List.sum_cons]
        omega
      · rw [List.filter_cons_of_neg hp, List.filter_cons_of_neg hq]
        exact ih

/-- C2: for every event set, weight choice, reference instant and custom
range, every row of the Rolling-Window Aggregator's output satisfies
`sold_7d ≤ sold_14d ≤ sold_21d ≤ sold_30d ≤ sold_total`. -/
theorem windows_monotone (events : List SaleEvent) (wt : SaleEvent → Nat)
    (now start_d end_d : Int) :
    ∀ row ∈ aggregate events wt now start_d end_d,
      row.sold_7d ≤ row.sold_14d ∧ row.sold_14d ≤ row.sold_21d
        ∧ row.sold_21d ≤ row.sold_30d ∧ row.sold_30d ≤ row.sold_total := by
  intro row hrow
  simp only [aggregate, List.mem_map] at hrow
  obtain ⟨i, hi, rfl⟩ := hrow
  refine ⟨?_, ?_, ?_, ?_⟩
  case _ | _ | _ =>
    apply countIn_mono
    intro e he
    simp only [Bool.and_eq_true, beq_iff_eq, decide_eq_true_eq] at he ⊢
    obtain ⟨h1, h2⟩ := he
    exact ⟨h1, by omega⟩
  case _ =>
    apply countIn_mono
    intro e he
    simp only [Bool.and_eq_true, beq_iff_eq, decide_eq_true_eq] at he ⊢
    exact he.1

/-- C2 witness: the property evaluated on the §8 example event set. -/
theorem windows_monotone_witness :
    (AggRow.mk "A" 0 1 1 2 1 2).sold_7d ≤ (AggRow.mk "A" 0 1 1 2 1 2).sold_14d
      ∧ (AggRow.mk "A" 0 1 1 2 1 2).sold_30d
        ≤ (AggRow.mk "A" 0 1 1 2 1 2).sold_total := by
  have h := windows_monotone demoEvents SaleEvent.quantity 19753 19738 19754
    (AggRow.mk "A" 0 1 1 2 1 2) (by decide)
  exact ⟨h.1, h.2.2.2⟩

/-- C4: when the custom range is inverted (`start_d > end_d`), every row
of the aggregation carries `sold_custom = 0`; the aggregator is a total
function, so no error is raised. -/
theorem empty_custom_range (events : List SaleEvent) (wt : SaleEvent → Nat)
    (now start_d end_d : Int) (h : end_d < start_d) :
    ∀ row ∈ aggregate events wt now start_d end_d, row.sold_custom = 0 := by
  intro row hrow
  simp only [aggregate, List.mem_map] at hrow
  obtain ⟨i, hi, rfl⟩ := hrow
  show customCount events wt i start_d end_d = 0
  unfold customCount countIn
  rw [List.filter_eq_nil_iff.mpr ?all, List.map_nil, List.sum_nil]
  case all =>
    intro e _
    simp only [Bool.and_eq_true, beq_iff_eq, decide_eq_true_eq, not_and]
    intro h1 h2
    omega

/-- C4 witness: an inverted range on the example event set. -/
theorem empty_custom_range_witness :
    (AggRow.mk "A" 0 1 1 2 0 2).sold_custom = 0 := by
  have h := empty_custom_range demoEvents SaleEvent.quantity 19753 19754 19738
    (by decide) (AggRow.mk "A" 0 1 1 2 0 2) (by decide)
  exact h

/-- C1: every row the Grand-Total Annotator emits carries grand-total
columns equal to the column-wise sums of the corresponding per-item
metric over the whole (post-join, pre-filter) input row set, and these
values are identical across all emitted rows. -/
theorem grand_totals_consistent (rows : List JoinedRow) :
    ∀ r ∈ annotate rows,
      (r.grand_sold_7d = (rows.map JoinedRow.sold_7d).sum
        ∧ r.grand_sold_14d = (rows.map JoinedRow.sold_14d).sum
        ∧ r.grand_sold_21d = (rows.map JoinedRow.sold_21d).sum
        ∧ r.grand_sold_30d = (rows.map JoinedRow.sold_30d).sum
        ∧ r.grand_sold_total = (rows.map JoinedRow.sold_total).sum)
      ∧ ∀ r' ∈ annotate rows,
          r.grand_sold_7d = r'.grand_sold_7d
            ∧ r.grand_sold_14d = r'.grand_sold_14d
            ∧ r.grand_sold_21d = r'.grand_sold_21d
            ∧ r.grand_sold_30d = r'.grand_sold_30d
            ∧ r.grand_sold_total = r'.grand_sold_total := by
  intro r hr
  simp only [annotate, List.mem_map] at hr
  obtain ⟨x, hx, rfl⟩ := hr
  refine ⟨⟨rfl, rfl, rfl, rfl, rfl⟩, ?_⟩
  intro r' hr'
  simp only [annotate, List.mem_map] at hr'
  obtain ⟨y, hy, rfl⟩ := hr'
  exact ⟨rfl, rfl, rfl, rfl, rfl⟩

/-- C1 witness: the grand 30-day total on a concrete joined row set. -/
theorem grand_totals_consistent_witness :
    (ItemRollup.mk (JoinedRow.mk "A" "Widget" 12 "" "" 0 1 2 2 1 2)
        0 1 2 3 3).grand_sold_30d
      = (demoJoined.map JoinedRow.sold_30d).sum := by
  have h := grand_totals_consistent demoJoined
    (ItemRollup.mk (JoinedRow.mk "A" "Widget" 12 "" "" 0 1 2 2 1 2) 0 1 2 3 3)
    (by decide)
  exact h.1.2.2.2.1

theorem laterEvent_cases (a b : SaleEvent) :
    laterEvent a b = a ∨ laterEvent a b = b := by
  unfold laterEvent
  split
  · exact Or.inr rfl
  · exact Or.inl rfl

theorem lexLe_laterEvent_left (a b : SaleEvent) :
    a.sold_date < (laterEvent a b).sold_date
      ∨ (a.sold_date = (laterEvent a b).sold_date
        ∧ a.idx ≤ (laterEvent a b).idx) := by
  unfold laterEvent
  split
  · rename_i hc
    rcases hc with h | ⟨h1, h2⟩
    · exact Or.inl h
    · exact Or.inr ⟨h1, Nat.le_of_lt h2⟩
  · exact Or.inr ⟨rfl, Nat.le_refl _⟩

theorem lexLe_laterEvent_right (a b : SaleEvent) :
    b.sold_date < (laterEvent a b).sold_date
      ∨ (b.sold_date = (laterEvent a b).sold_date
        ∧ b.idx ≤ (laterEvent a b).idx) := by
  unfold laterEvent
  split
  · exact Or.inr ⟨rfl, Nat.le_refl _⟩
  · rename_i hc
    push_neg at hc
    obtain ⟨h1, h2⟩ := hc
    rcases lt_or_eq_of_le h1 with h | h
    · exact Or.inl h
    · exact Or.inr ⟨h, h2 h.symm⟩

theorem foldl_laterEvent (xs : List SaleEvent) (x : SaleEvent) :
    xs.foldl laterEvent x ∈ x :: xs
      ∧ ∀ y ∈ x :: xs,
          y.sold_date < (xs.foldl laterEvent x).sold_date
            ∨ (y.sold_date = (xs.foldl laterEvent x).sold_date
              ∧ y.idx ≤ (xs.foldl laterEvent x).idx) := by
  induction xs generalizing x with
  | nil =>
    refine ⟨List.mem_singleton.mpr rfl, ?_⟩
    intro y hy
    rw [List.mem_singleton.mp hy]
    exact Or.inr ⟨rfl, Nat.le_refl _⟩
  | cons z zs ih =>
    rw [List.foldl_cons]
    obtain ⟨ihmem, ihbound⟩ := ih (laterEvent x z)
    constructor
    · rcases List.mem_cons.mp ihmem with h | h
      · rcases laterEvent_cases x z with hc | hc <;> rw [h, hc] <;> simp
      · simp [List.mem_cons, h]
    · intro y hy
      rcases List.mem_cons.mp hy with rfl | hy'
      · have h1 := lexLe_laterEvent_left y z
        have h2 := ihbound (laterEvent y z) (List.mem_cons_self _ _)
        omega
      · rcases List.mem_cons.mp hy' with rfl | hy''
        · have h1 := lexLe_laterEvent_right x y
          have h2 := ihbound (laterEvent x y) (List.mem_cons_self _ _)
          omega
        · exact ihbound y (List.mem_cons_of_mem _ hy'')

/-- C8: whenever an item has at least one event, the Latest-Attributes
Resolver's choice for that item is the event maximising the lexicographic
key (`sold_date`, insertion index): among events tied on the latest
`sold_date` the last-inserted one is chosen, and since the resolver is a
pure function of the event set, repeated runs resolve identically. -/
theorem latest_tiebreak_deterministic (events : List SaleEvent) (i : String)
    (e0 : SaleEvent) (he0 : e0 ∈ events) (hid : e0.item_id = i) :
    ∃ c, latestEvent events i = some c ∧ c ∈ events ∧ c.item_id = i
      ∧ ∀ e ∈ events, e.item_id = i →
          e.sold_date < c.sold_date
            ∨ (e.sold_date = c.sold_date ∧ e.idx ≤ c.idx) := by
  have hmem : e0 ∈ events.filter (fun e => e.item_id == i) := by
    simp [List.mem_filter, he0, hid]
  rcases hfe : events.filter (fun e => e.item_id == i) with _ | ⟨x, xs⟩
  · rw [hfe] at hmem
    simp at hmem
  · obtain ⟨hm, hb⟩ := foldl_laterEvent xs x
    have hcf : xs.foldl laterEvent x ∈ events.filter (fun e => e.item_id == i) := by
      rw [hfe]
      exact hm
    refine ⟨xs.foldl laterEvent x, ?_, ?_, ?_, ?_⟩
    · unfold latestEvent
      rw [hfe]
    · exact (List.mem_filter.mp hcf).1
    · have h2 := (List.mem_filter.mp hcf).2
      simpa using h2
    · intro e hee hei
      apply hb
      rw [← hfe]
      simp [List.mem_filter, hee, hei]

/-- C8 witness: the two "B" events of the example share the latest date;
the resolver settles on the last-inserted one. -/
theorem latest_tiebreak_deterministic_witness :
    ∃ c, latestEvent demoEvents "B" = some c ∧ c ∈ demoEvents
      ∧ c.item_id = "B"
      ∧ ∀ e ∈ demoEvents, e.item_id = "B" →
          e.sold_date < c.sold_date
            ∨ (e.sold_date = c.sold_date ∧ e.idx ≤ c.idx) :=
  latest_tiebreak_deterministic demoEvents "B"
    ⟨"B", 19747, 5, "Gadget", "", "", 1, 2⟩ (by decide) rfl

theorem joinRollup_ok_of_covered (attrs : List AttrRow) (aggs : List AggRow)
    (h : ∀ a ∈ aggs, ∃ t ∈ attrs, t.item_id = a.item_id) :
    ∃ l, joinRollup attrs aggs = Except.ok l ∧ l.length = aggs.length := by
  induction aggs with
  | nil => exact ⟨[], rfl, rfl⟩
  | cons a rest ih =>
    obtain ⟨t, ht, htid⟩ := h a (List.mem_cons_self _ _)
    have hfind : (attrs.find? (fun t => t.item_id == a.item_id)).isSome := by
      rw [List.find?_isSome]
      exact ⟨t, ht, by simp [htid]⟩
    obtain ⟨t', ht'⟩ := Option.isSome_iff_exists.mp hfind
    obtain ⟨l, hl, hlen⟩ := ih (fun b hb => h b (List.mem_cons_of_mem _ hb))
    refine ⟨⟨a.item_id, t'.title, t'.price, t'.image_url, t'.product_url,
      a.sold_7d, a.sold_14d, a.sold_21d, a.sold_30d, a.sold_custom,
      a.sold_total⟩ :: l, ?_, by simp [hlen]⟩
    simp only [joinRollup, ht', hl]

theorem joinRollup_error_of_orphan (attrs : List AttrRow) (aggs : List AggRow)
    (a : AggRow) (ha : a ∈ aggs) (h : ∀ t ∈ attrs, t.item_id ≠ a.item_id) :
    ∃ m, joinRollup attrs aggs = Except.error m := by
  induction aggs with
  | nil => simp at ha
  | cons b rest ih =>
    rcases List.mem_cons.mp ha with rfl | hmem
    · have hfind : attrs.find? (fun t => t.item_id == a.item_id) = none := by
        rw [List.find?_eq_none]
        intro t ht
        simp [h t ht]
      exact ⟨"orphaned aggregate row for item " ++ a.item_id,
        by simp only [joinRollup, hfind]⟩
    · obtain ⟨m, hm⟩ := ih hmem
      cases hfind : attrs.find? (fun t => t.item_id == b.item_id) with
      | none =>
        exact ⟨"orphaned aggregate row for item " ++ b.item_id,
          by simp only [joinRollup, hfind]⟩
      | some t => exact ⟨m, by simp only [joinRollup, hfind, hm]⟩

theorem aggregate_covered (events : List SaleEvent) (wt : SaleEvent → Nat)
    (now start_d end_d : Int) :
    ∀ a ∈ aggregate events wt now start_d end_d,
      ∃ t ∈ resolveAttrs events, t.item_id = a.item_id := by
  intro a ha
  simp only [aggregate, List.mem_map] at ha
  obtain ⟨i, hi, rfl⟩ := ha
  have hex : ∃ e ∈ events, e.item_id = i := by
    simpa [itemIds, List.mem_dedup, List.mem_map] using hi
  obtain ⟨e, he, hei⟩ := hex
  have hmem : e ∈ events.filter (fun e => e.item_id == i) := by
    simp [List.mem_filter, he, hei]
  rcases hfe : events.filter (fun e => e.item_id == i) with _ | ⟨x, xs⟩
  · rw [hfe] at hmem
    simp at hmem
  · refine ⟨⟨i, (xs.foldl laterEvent x).title, (xs.foldl laterEvent x).price,
      (xs.foldl laterEvent x).image_url, (xs.foldl laterEvent x).product_url⟩,
      ?_, rfl⟩
    simp only [resolveAttrs, List.mem_filterMap]
    refine ⟨i, hi, ?_⟩
    simp only [latestEvent, hfe]
    rfl

/-- C9: every item present in the Rolling-Window Aggregator's output has
a counterpart in the Latest-Attributes output, so joining the two never
drops a row (the joined list keeps one row per aggregate row); and for
any inputs in which an aggregate row has no attribute counterpart, the
Rollup Joiner raises an internal-consistency error instead of silently
omitting the row or emitting nulls. -/
theorem join_never_drops (events : List SaleEvent) (wt : SaleEvent → Nat)
    (now start_d end_d : Int) :
    (∀ a ∈ aggregate events wt now start_d end_d,
        ∃ t ∈ resolveAttrs events, t.item_id = a.item_id)
      ∧ (∃ l, joinRollup (resolveAttrs events)
            (aggregate events wt now start_d end_d) = Except.ok l
          ∧ l.length = (aggregate events wt now start_d end_d).length)
      ∧ ∀ attrs aggs a, a ∈ aggs → (∀ t ∈ attrs, t.item_id ≠ a.item_id) →
          ∃ m, joinRollup attrs aggs = Except.error m := by
  refine ⟨aggregate_covered events wt now start_d end_d, ?_, ?_⟩
  · exact joinRollup_ok_of_covered _ _
      (aggregate_covered events wt now start_d end_d)
  · intro attrs aggs a ha h
    exact joinRollup_error_of_orphan attrs aggs a ha h

/-- C9 witness: the joiner succeeds and keeps both rows on the example
event set. -/
theorem join_never_drops_witness :
    ∃ l, joinRollup (resolveAttrs demoEvents)
        (aggregate demoEvents SaleEvent.quantity 19753 19738 19754)
        = Except.ok l
      ∧ l.length
        = (aggregate demoEvents SaleEvent.quantity 19753 19738 19754).length :=
  (join_never_drops demoEvents SaleEvent.quantity 19753 19738 19754).2.1

theorem mem_insert_desc {a r : SummaryRow} {l : List SummaryRow} :
    a ∈ insert_desc r l ↔ a = r ∨ a ∈ l := by
  induction l with
  | nil => simp [insert_desc]
  | cons x xs ih =>
    simp only [insert_desc]
    split
    · simp [List.mem_cons]
    · simp only [List.mem_cons, ih]
      tauto

theorem mem_order_by_total_desc {a : SummaryRow} {l : List SummaryRow} :
    a ∈ order_by_total_desc l ↔ a ∈ l := by
  induction l with
  | nil => simp [order_by_total_desc]
  | cons r rs ih => simp [order_by_total_desc, mem_insert_desc, ih]

theorem pairwise_insert_desc (r : SummaryRow) (l : List SummaryRow)
    (h : l.Pairwise fun a b => b.total_quantity_sold ≤ a.total_quantity_sold) :
    (insert_desc r l).Pairwise
      fun a b => b.total_quantity_sold ≤ a.total_quantity_sold := by
  induction l with
  | nil => simp [insert_desc]
  | cons x xs ih =>
    obtain ⟨hx, hxs⟩ := List.pairwise_cons.mp h
    simp only [insert_desc]
    split
    · rename_i hle
      refine List.pairwise_cons.mpr ⟨?_, h⟩
      intro b hb
      rcases List.mem_cons.mp hb with rfl | hb'
      · exact hle
      · exact le_trans (hx b hb') hle
    · rename_i hgt
      refine List.pairwise_cons.mpr ⟨?_, ih hxs⟩
      intro b hb
      rcases mem_insert_desc.mp hb with rfl | hb'
      · omega
      · exact hx b hb'

theorem pairwise_order_by_total_desc (l : List SummaryRow) :
    (order_by_total_desc l).Pairwise
      fun a b => b.total_quantity_sold ≤ a.total_quantity_sold := by
  induction l with
  | nil => simp [order_by_total_desc]
  | cons r rs ih => exact pairwise_insert_desc r _ ih

/-- C10: the rows `summary_query` returns are in non-increasing order of
`total_quantity_sold` (the `ORDER BY total_quantity_sold DESC` clause). -/
theorem summary_query_sorted_desc (items : List DailySoldItem)
    (sales : List ItemSoldDate) (start_d end_d : Int) :
    (summary_query items sales start_d end_d).Pairwise
      fun a b => b.total_quantity_sold ≤ a.total_quantity_sold :=
  pairwise_order_by_total_desc _

theorem mem_join_rows {items : List DailySoldItem} {sales : List ItemSoldDate}
    {start_d end_d : Int} {p : DailySoldItem × ItemSoldDate}
    (hp : p ∈ join_rows items sales start_d end_d) :
    p.1 ∈ items ∧ p.2 ∈ sales
      ∧ p.2.ebay_item_number = p.1.ebay_item_number
      ∧ start_d ≤ p.2.sold_date ∧ p.2.sold_date ≤ end_d := by
  simp only [join_rows, List.mem_flatMap, List.mem_map, List.mem_filter] at hp
  obtain ⟨d, hd, s, ⟨hs, hcond⟩, rfl⟩ := hp
  simp only [Bool.and_eq_true, beq_iff_eq, decide_eq_true_eq] at hcond
  exact ⟨hd, hs, hcond.1.1, hcond.1.2, hcond.2⟩

theorem group_key_mem {items : List DailySoldItem} {sales : List ItemSoldDate}
    {start_d end_d : Int} {d : DailySoldItem}
    (hd : d ∈ group_keys (join_rows items sales start_d end_d)) :
    ∃ p ∈ join_rows items sales start_d end_d, p.1 = d := by
  simp only [group_keys, List.mem_dedup, List.mem_map] at hd
  obtain ⟨p, hpj, hpd⟩ := hd
  exact ⟨p, hpj, hpd⟩

/-- C7: an item with no sale event in the store never appears as a row of
`summary_query`; a row is emitted only for items with at least one
matching event. -/
theorem no_events_no_row (items : List DailySoldItem)
    (sales : List ItemSoldDate) (start_d end_d : Int) (i : String)
    (h : ∀ s ∈ sales, s.ebay_item_number ≠ i) :
    ∀ row ∈ summary_query items sales start_d end_d,
      row.ebay_item_number ≠ i := by
  intro row hrow
  rw [summary_query, mem_order_by_total_desc] at hrow
  simp only [summary_rows, List.mem_map] at hrow
  obtain ⟨d, hd, rfl⟩ := hrow
  obtain ⟨p, hpj, hpd⟩ := group_key_mem hd
  have hm := mem_join_rows hpj
  intro hcontra
  exact h p.2 hm.2.1 (by rw [hm.2.2.1, hpd]; exact hcontra)

/-- C7 witness: item "999" has no events, and the concrete top output row
of the demo query does not carry it. -/
theorem no_events_no_row_witness :
    (SummaryRow.mk "222" "Gadget" 5 "http://x/2" none 4).ebay_item_number
      ≠ "999" :=
  no_events_no_row demoItems demoSales 19700 19800 "999" (by decide)
    (SummaryRow.mk "222" "Gadget" 5 "http://x/2" none 4) (by decide)

theorem join_rows_filter_key (items : List DailySoldItem)
    (sales : List ItemSoldDate) (start_d end_d : Int) (d0 : DailySoldItem)
    (hnd : (items.map DailySoldItem.ebay_item_number).Nodup)
    (hd0 : d0 ∈ items) :
    (join_rows items sales start_d end_d).filter (fun p => p.1 == d0)
      = (sales.filter fun s =>
          s.ebay_item_number == d0.ebay_item_number
            && decide (start_d ≤ s.sold_date)
            && decide (s.sold_date ≤ end_d)).map
        fun s => (d0, s) := by
  induction items with
  | nil => simp at hd0
  | cons d items ih =>
    have hcons : join_rows (d :: items) sales start_d end_d
        = ((sales.filter fun s =>
            s.ebay_item_number == d.ebay_item_number
              && decide (start_d ≤ s.sold_date)
              && decide (s.sold_date ≤ end_d)).map fun s => (d, s))
          ++ join_rows items sales start_d end_d := by
      simp [join_rows, List.flatMap_cons]
    rw [hcons, List.filter_append]
    rw [List.map_cons, List.nodup_cons] at hnd
    rcases List.mem_cons.mp hd0 with rfl | hmem
    · have hblock : ((sales.filter fun s =>
          s.ebay_item_number == d0.ebay_item_number
            && decide (start_d ≤ s.sold_date)
            && decide (s.sold_date ≤ end_d)).map
            fun s => (d0, s)).filter (fun p => p.1 == d0)
          = (sales.filter fun s =>
              s.ebay_item_number == d0.ebay_item_number
                && decide (start_d ≤ s.sold_date)
                && decide (s.sold_date ≤ end_d)).map fun s => (d0, s) := by
        rw [List.filter_eq_self]
        intro p hp
        simp only [List.mem_map] at hp
        obtain ⟨s, _, rfl⟩ := hp
        simp
      have hrest : (join_rows items sales start_d end_d).filter
          (fun p => p.1 == d0) = [] := by
        rw [List.filter_eq_nil_iff]
        intro p hp
        have h1 := (mem_join_rows hp).1
        simp only [beq_iff_eq]
        intro hcontra
        exact hnd.1 (by
          rw [← hcontra]
          exact List.mem_map.mpr ⟨p.1, h1, rfl⟩)
      rw [hblock, hrest, List.append_nil]
    · have hne : d ≠ d0 := by
        intro hcontra
        exact hnd.1 (by
          rw [hcontra]
          exact List.mem_map.mpr ⟨d0, hmem, rfl⟩)
      have hblock : ((sales.filter fun s =>
          s.ebay_item_number == d.ebay_item_number
            && decide (start_d ≤ s.sold_date)
            && decide (s.sold_date ≤ end_d)).map
            fun s => (d, s)).filter (fun p => p.1 == d0) = [] := by
        rw [List.filter_eq_nil_iff]
        intro p hp
        simp only [List.mem_map] at hp
        obtain ⟨s, _, rfl⟩ := hp
        simp [hne]
      rw [hblock, List.nil_append]
      exact ih hnd.2 hmem

/-- C3: under uniqueness of the item numbers in `daily_sold_items` (its
key), every row of `summary_query` carries as `total_quantity_sold`
exactly the sum of `quantity_sold` over that item's sale events with
`start_d ≤ sold_date ≤ end_d`, both ends inclusive. -/
theorem summary_total_correct (items : List DailySoldItem)
    (sales : List ItemSoldDate) (start_d end_d : Int)
    (hkey : (items.map DailySoldItem.ebay_item_number).Nodup) :
    ∀ row ∈ summary_query items sales start_d end_d,
      row.total_quantity_sold
        = ((sales.filter fun s =>
              s.ebay_item_number == row.ebay_item_number
                && decide (start_d ≤ s.sold_date)
                && decide (s.sold_date ≤ end_d)).map
            ItemSoldDate.quantity_sold).sum := by
  intro row hrow
  rw [summary_query, mem_order_by_total_desc] at hrow
  simp only [summary_rows, List.mem_map] at hrow
  obtain ⟨d, hd, rfl⟩ := hrow
  have hd_items : d ∈ items := by
    obtain ⟨p, hpj, hpd⟩ := group_key_mem hd
    have h1 := (mem_join_rows hpj).1
    rwa [hpd] at h1
  show (((join_rows items sales start_d end_d).filter fun p => p.1 == d).map
      fun p => p.2.quantity_sold).sum = _
  rw [join_rows_filter_key items sales start_d end_d d hkey hd_items,
    List.map_map]
  rfl

/-- C3 witness: the "222" row's total is the in-range quantity sum. -/
theorem summary_total_correct_witness :
    (SummaryRow.mk "222" "Gadget" 5 "http://x/2" none 4).total_quantity_sold
      = ((demoSales.filter fun s =>
            s.ebay_item_number
                == (SummaryRow.mk "222" "Gadget" 5 "http://x/2" none
                  4).ebay_item_number
              && decide ((19700 : Int) ≤ s.sold_date)
              && decide (s.sold_date ≤ (19800 : Int))).map
          ItemSoldDate.quantity_sold).sum :=
  summary_total_correct demoItems demoSales 19700 19800 (by decide)
    (SummaryRow.mk "222" "Gadget" 5 "http://x/2" none 4) (by decide)

theorem mem_title_stage {rows : List SummaryRow} {tf : String}
    {r : SummaryRow} :
    r ∈ title_stage rows tf
      ↔ r ∈ rows ∧ (tf = "" ∨ containsCI r.title tf = true) := by
  unfold title_stage
  rcases eq_or_ne tf "" with h | h
  · simp [h]
  · simp [h, List.mem_filter]

theorem mem_sku_stage {rows : List SummaryRow} {sf : String}
    {r : SummaryRow} :
    r ∈ sku_stage rows sf
      ↔ r ∈ rows ∧ (sf = "" ∨ skuMatches r.sku sf = true) := by
  unfold sku_stage
  rcases eq_or_ne sf "" with h | h
  · simp [h]
  · simp [h, List.mem_filter]

theorem mem_df_filtered {rows : List SummaryRow} {tf sf : String}
    {price_lo price_hi : Int} {qty_lo qty_hi : Nat} {r : SummaryRow} :
    r ∈ df_filtered rows tf sf price_lo price_hi qty_lo qty_hi
      ↔ r ∈ rows ∧ (tf = "" ∨ containsCI r.title tf = true)
          ∧ (sf = "" ∨ skuMatches r.sku sf = true)
          ∧ price_lo ≤ r.price ∧ r.price ≤ price_hi
          ∧ qty_lo ≤ r.total_quantity_sold
          ∧ r.total_quantity_sold ≤ qty_hi := by
  unfold df_filtered
  rw [List.mem_filter, mem_sku_stage, mem_title_stage]
  simp only [Bool.and_eq_true, decide_eq_true_eq]
  tauto

/-- C5: when the range maxima sit at or above every row's values (their
UI defaults are the column maxima) and the sku box is empty, the
Post-Filter returns exactly the rows whose metrics meet the minimum
thresholds and whose title matches the pattern case-insensitively — an
empty pattern filtering out nothing. -/
theorem post_filter_characterization (rows : List SummaryRow) (tf : String)
    (price_lo price_hi : Int) (qty_lo qty_hi : Nat)
    (hp : ∀ r ∈ rows, r.price ≤ price_hi)
    (hq : ∀ r ∈ rows, r.total_quantity_sold ≤ qty_hi) :
    ∀ r, r ∈ df_filtered rows tf "" price_lo price_hi qty_lo qty_hi
      ↔ r ∈ rows ∧ price_lo ≤ r.price ∧ qty_lo ≤ r.total_quantity_sold
          ∧ (tf = "" ∨ containsCI r.title tf = true) := by
  intro r
  rw [mem_df_filtered]
  constructor
  · rintro ⟨h1, h2, -, h4, -, h6, -⟩
    exact ⟨h1, h4, h6, h2⟩
  · rintro ⟨h1, h2, h3, h4⟩
    exact ⟨h1, h4, Or.inl rfl, h2, hp r h1, h3, hq r h1⟩

/-- C5 witness: the characterization evaluated on the demo rows with an
empty pattern, which keeps the "Widget" row. -/
theorem post_filter_characterization_witness :
    SummaryRow.mk "111" "Widget" 10 "http://x/1" (some "SK1") 3
        ∈ df_filtered demoRows "" "" 0 10 0 4
      ↔ SummaryRow.mk "111" "Widget" 10 "http://x/1" (some "SK1") 3 ∈ demoRows
          ∧ (0 : Int) ≤ (SummaryRow.mk "111" "Widget" 10 "http://x/1"
              (some "SK1") 3).price
          ∧ (0 : Nat) ≤ (SummaryRow.mk "111" "Widget" 10 "http://x/1"
              (some "SK1") 3).total_quantity_sold
          ∧ (("" : String) = ""
            ∨ containsCI (SummaryRow.mk "111" "Widget" 10 "http://x/1"
                (some "SK1") 3).title "" = true) :=
  post_filter_characterization demoRows "" 0 10 0 4 (by decide) (by decide)
    (SummaryRow.mk "111" "Widget" 10 "http://x/1" (some "SK1") 3)

/-- C6: applying the Post-Filter twice with the same thresholds and
patterns yields exactly the row set of applying it once. -/
theorem post_filter_idempotent (rows : List SummaryRow) (tf sf : String)
    (price_lo price_hi : Int) (qty_lo qty_hi : Nat) :
    df_filtered (df_filtered rows tf sf price_lo price_hi qty_lo qty_hi)
        tf sf price_lo price_hi qty_lo qty_hi
      = df_filtered rows tf sf price_lo price_hi qty_lo qty_hi := by
  have hts : title_stage (df_filtered rows tf sf price_lo price_hi qty_lo
      qty_hi) tf = df_filtered rows tf sf price_lo price_hi qty_lo qty_hi := by
    unfold title_stage
    rcases eq_or_ne tf "" with h | h
    · rw [if_pos h]
    · rw [if_neg h, List.filter_eq_self]
      intro r hr
      rcases (mem_df_filtered.mp hr).2.1 with h' | h'
      · exact absurd h' h
      · exact h'
  have hss : sku_stage (df_filtered rows tf sf price_lo price_hi qty_lo
      qty_hi) sf = df_filtered rows tf sf price_lo price_hi qty_lo qty_hi := by
    unfold sku_stage
    rcases eq_or_ne sf "" with h | h
    · rw [if_pos h]
    · rw [if_neg h, List.filter_eq_self]
      intro r hr
      rcases (mem_df_filtered.mp hr).2.2.1 with h' | h'
      · exact absurd h' h
      · exact h'
  conv_lhs => rw [df_filtered, hts, hss]
  rw [List.filter_eq_self]
  intro r hr
  have h := mem_df_filtered.mp hr
  simp only [Bool.and_eq_true, decide_eq_true_eq]
  exact ⟨⟨⟨h.2.2.2.1, h.2.2.2.2.1⟩, h.2.2.2.2.2.1⟩, h.2.2.2.2.2.2⟩
